import Mathlib

/-!
Shallow embedding of `pygmsh.built_in.geometry.Geometry` (file
`src/pygmsh/built_in/geometry.py`) together with theorems settling the
spec claims about it.  Machine reals appearing in the Python source are
modelled as `ℚ` (IEEE doubles are rationals and their order agrees with
the rational order); the gmsh kernel is external and is modelled only
through the calls the source issues to it.
-/

namespace Pygmsh

/- ------------------------------------------------------------------
   Entity references: gmsh identifies kernel entities by (dimension, tag).
   ------------------------------------------------------------------ -/

structure EntityRef where
  dimension : ℕ
  tag : ℕ
deriving DecidableEq

/-- Placement calls of `gmsh.model.geo` recorded symbolically: which kernel
function is invoked, on which dim-tags, with which numeric arguments
(in positional order). -/
inductive GeoKernelCall where
  | rotateCall (dimTags : List (ℕ × ℕ)) (args : List ℚ)
  | translateCall (dimTags : List (ℕ × ℕ)) (args : List ℚ)
  | symmetrizeCall (dimTags : List (ℕ × ℕ)) (args : List ℚ)
deriving DecidableEq

/-- `Geometry.translate(input_entity, vector)`: the docstring reads
"Translates input_entity itself by vector", but the body executes
`gmsh.model.geo.rotate([(dim, id)], *vector)` — a rotation request carrying
only the three vector components.  The definition records exactly the kernel
call the source issues. -/
def translate (input_entity : EntityRef) (vector : ℚ × ℚ × ℚ) : GeoKernelCall :=
  .rotateCall [(input_entity.dimension, input_entity.tag)]
    [vector.1, vector.2.1, vector.2.2]

/-- `Geometry.rotate(input_entity, point, angle, axis)`: executes
`gmsh.model.geo.rotate([(dim, id)], *point, *axis, angle)`. -/
def rotate (input_entity : EntityRef) (point : ℚ × ℚ × ℚ) (angle : ℚ)
    (axis : ℚ × ℚ × ℚ) : GeoKernelCall :=
  .rotateCall [(input_entity.dimension, input_entity.tag)]
    [point.1, point.2.1, point.2.2, axis.1, axis.2.1, axis.2.2, angle]

/-- `Geometry.symmetrize(input_entity, coefficients)`: executes
`gmsh.model.geo.symmetrize([(dim, id)], *coefficients)`. -/
def symmetrize (input_entity : EntityRef) (coefficients : List ℚ) : GeoKernelCall :=
  .symmetrizeCall [(input_entity.dimension, input_entity.tag)] coefficients

/- ------------------------------------------------------------------
   Physical-group label allocation (`Geometry._new_physical_group`).
   `self._TAKEN_PHYSICALGROUP_IDS` is a Python list of ints, modelled as
   `List ℤ`.  The label argument is `None`, an `int`, or a `str`; string
   payloads are kept abstract in a type `σ` (only identity matters).
   ------------------------------------------------------------------ -/

/-- the `label` argument of `_new_physical_group`. -/
inductive PGLabel (σ : Type) where
  | noLabel
  | intLabel (n : ℤ)
  | strLabel (s : σ)

/-- the value returned by `_new_physical_group`: `str(label)` for an integer
label, the quoted string for a string label. -/
inductive ResolvedLabel (σ : Type) where
  | intRepr (n : ℤ)
  | strRepr (s : σ)

/-- `max(self._TAKEN_PHYSICALGROUP_IDS)` guarded by emptiness:
`0 if not taken else max(taken)`, exactly the `max_id` computation. -/
def maxTaken : List ℤ → ℤ
  | [] => 0
  | x :: xs => xs.foldl max x

/-- `Geometry._new_physical_group(label)`: resolve `None` to `max_id + 1`;
an integer label must not be taken (the `assert`, modelled as `none`) and is
appended to the taken list; a string label appends `max_id + 1` to the taken
list and returns the quoted string. -/
def _new_physical_group (taken : List ℤ) (label : PGLabel σ) :
    Option (ResolvedLabel σ × List ℤ) :=
  let max_id := maxTaken taken
  let resolved : PGLabel σ :=
    match label with
    | .noLabel => .intLabel (max_id + 1)
    | l => l
  match resolved with
  | .intLabel n =>
      if n ∈ taken then none else some (.intRepr n, taken ++ [n])
  | .strLabel s => some (.strRepr s, taken ++ [max_id + 1])
  | .noLabel => none

/-- run a sequence of allocations, threading the taken-id list, failing as
soon as one allocation fails. -/
def runAllocsFrom (taken : List ℤ) : List (PGLabel σ) → Option (List ℤ)
  | [] => some taken
  | l :: ls =>
      match _new_physical_group taken l with
      | none => none
      | some (_, taken') => runAllocsFrom taken' ls

/-- a fresh `Geometry` starts with `self._TAKEN_PHYSICALGROUP_IDS = []`. -/
def runAllocs (ls : List (PGLabel σ)) : Option (List ℤ) := runAllocsFrom [] ls

/- ------------------------------------------------------------------
   `Geometry.extrude` (translation / revolution / twist).
   Floats are modelled as ℚ; `numpy.pi` is the IEEE double closest to π.
   The kernel calls `gmsh.model.geo.extrude` / `revolve` / `twist` are
   external; the model records which of them is reached, or the failure
   raised before reaching it.
   ------------------------------------------------------------------ -/

/-- the exact rational value of the IEEE-754 double `numpy.pi`. -/
def numpyPi : ℚ := 884279719003555 / 281474976710656

/-- the `num_layers` argument: `None`, a single `int`, or a list. -/
inductive NumLayersArg where
  | noneArg
  | single (n : ℤ)
  | listArg (l : List ℤ)
deriving DecidableEq

/-- which kernel sweep function an `extrude` call reaches. -/
inductive KernelOp where
  | extrudeOp
  | revolveOp
  | twistOp
deriving DecidableEq

/-- the fate of an `extrude` call: a kernel sweep is issued and the
`(top, extruded, lateral)` triple of opaque references is returned, or the
call dies first (a failed `assert`, or a `TypeError` from comparing or
subscripting `None`). -/
inductive ExtrudeOutcome where
  | ok (op : KernelOp)
  | assertError
  | typeError
deriving DecidableEq

def ExtrudeOutcome.isOk : ExtrudeOutcome → Bool
  | .ok _ => true
  | _ => false

/-- the `num_layers` / `heights` normalization at the top of `extrude`:
a single int becomes a one-element list; if `num_layers is None` the heights
are discarded; otherwise, when heights are given, `assert len(num_layers)
== len(heights)`. -/
def layersHeightsOk (num_layers : NumLayersArg) (heights : Option (List ℚ)) : Bool :=
  match num_layers, heights with
  | .noneArg, _ => true
  | _, none => true
  | .single _, some hs => hs.length == 1
  | .listArg l, some hs => l.length == hs.length

/-- `Geometry.extrude`, control flow translated from the source.  Mode is
selected by which of `translation_axis` / `rotation_axis` is present; the
rotation and twist branches run `assert angle < numpy.pi` (a `None` angle
raises `TypeError` inside that comparison) and then evaluate
`point_on_axis[0]`, which raises `TypeError` when `point_on_axis is None`.
No lower bound on `angle` is checked anywhere. -/
def extrude (dimension : Option ℕ)
    (translation_axis rotation_axis point_on_axis : Option (ℚ × ℚ × ℚ))
    (angle : Option ℚ) (num_layers : NumLayersArg) (heights : Option (List ℚ)) :
    ExtrudeOutcome :=
  match dimension with
  | none => .assertError
  | some _ =>
    if layersHeightsOk num_layers heights = false then .assertError
    else
      match translation_axis, rotation_axis with
      | some _, none => .ok .extrudeOp
      | none, some _ =>
          match angle with
          | none => .typeError
          | some a =>
              if a < numpyPi then
                match point_on_axis with
                | none => .typeError
                | some _ => .ok .revolveOp
              else .assertError
      | some _, some _ =>
          match angle with
          | none => .typeError
          | some a =>
              if a < numpyPi then
                match point_on_axis with
                | none => .typeError
                | some _ => .ok .twistOp
              else .assertError
      | none, none => .assertError

/- ------------------------------------------------------------------
   `Geometry.add_circle`.  The arcs are recorded as (start, center, end)
   triples of indices into the point list `p`, where `p[0]` is the center
   and `p[1] .. p[num_sections]` are the perimeter points (the rows of `X`).
   ------------------------------------------------------------------ -/

/-- number of rows of `X`, one gmsh point per row: the center plus
`num_sections` perimeter points.  (Indices are meaningful for
`num_sections ≥ 1`; `num_sections = 0` makes the source itself crash on
`p[1]`.) -/
def circleNumPoints (num_sections : ℕ) : ℕ := num_sections + 1

/-- the circle arcs: `add_circle_arc(p[k], p[0], p[k+1])` for
`k in range(1, len(p) - 1)`, then `add_circle_arc(p[-1], p[0], p[1])`. -/
def circleArcs (num_sections : ℕ) : List (ℕ × ℕ × ℕ) :=
  ((List.range' 1 (num_sections - 1)).map fun k => (k, 0, k + 1))
    ++ [(num_sections, 0, 1)]

/-- start point of a (start, center, end) arc triple. -/
def arcStart (a : ℕ × ℕ × ℕ) : ℕ := a.1

/-- center point of a (start, center, end) arc triple. -/
def arcCenter (a : ℕ × ℕ × ℕ) : ℕ := a.2.1

/-- end point of a (start, center, end) arc triple. -/
def arcEnd (a : ℕ × ℕ × ℕ) : ℕ := a.2.2

/-- entity-creating steps of `add_circle`, in execution order. -/
inductive BuildEvent where
  | pointEv (idx : ℕ)
  | arcEv (s c e : ℕ)
  | loopEv
  | surfaceEv
deriving DecidableEq

/-- the result bundle of a successful `add_circle` (the parts the claims
speak about): the curve loop's arcs, and — when `make_surface` — the plane
surface together with the hole loops attached to it. -/
structure CircleOut where
  curve_loop : List (ℕ × ℕ × ℕ)
  plane_surface : Option (List ℕ)
deriving DecidableEq

/-- `Geometry.add_circle`, control flow translated from the source.
`rOk = some b` models "a transformation matrix `R` was supplied and `b` is
the outcome of `numpy.allclose(abs(eigvals(R)), ones)`" (the eigenvalue
numerics themselves are numpy's, external to this core); `rOk = none`
models `R=None`.  Order as in the source: the holes assert, then the pure
computation of `X`, then the `R` eigenvalue assert, and only then the
creation of points, arcs, curve loop and optional plane surface.  The first
component lists the entity-creating events actually performed. -/
def add_circle (num_sections : ℕ) (rOk : Option Bool)
    (holes : Option (List ℕ)) (make_surface : Bool) :
    List BuildEvent × Option CircleOut :=
  let holesOk : Bool :=
    match holes with
    | none => true
    | some _ => make_surface
  if holesOk = false then ([], none)
  else
    match rOk with
    | some false => ([], none)
    | _ =>
        let pts := (List.range (circleNumPoints num_sections)).map BuildEvent.pointEv
        let arcs := (circleArcs num_sections).map fun a =>
          BuildEvent.arcEv (arcStart a) (arcCenter a) (arcEnd a)
        let surfEvs : List BuildEvent := if make_surface then [.surfaceEv] else []
        (pts ++ arcs ++ [BuildEvent.loopEv] ++ surfEvs,
         some ⟨circleArcs num_sections,
               if make_surface then some (holes.getD []) else none⟩)

/- ------------------------------------------------------------------
   `Geometry.add_polygon`.
   ------------------------------------------------------------------ -/

/-- the polygon edges over `n` vertices: `add_line(p[k], p[k+1])` for
`k in range(len(p) - 1)`, then `add_line(p[-1], p[0])`. -/
def polygonLines (n : ℕ) : List (ℕ × ℕ) :=
  ((List.range (n - 1)).map fun k => (k, k + 1)) ++ [(n - 1, 0)]

/-- the result bundle of a successful `add_polygon`: vertex count, lines,
and — when `make_surface` — the plane surface with its attached holes. -/
structure PolygonOut where
  num_points : ℕ
  lines : List (ℕ × ℕ)
  surface : Option (List ℕ)
deriving DecidableEq

/-- `Geometry.add_polygon` over `n` vertices: `holes=None` becomes `[]`,
any other holes argument runs `assert make_surface`; the plane surface,
when made, receives the supplied hole loops. -/
def add_polygon (n : ℕ) (holes : Option (List ℕ)) (make_surface : Bool) :
    Option PolygonOut :=
  let holesOk : Bool :=
    match holes with
    | none => true
    | some _ => make_surface
  if holesOk = false then none
  else some ⟨n, polygonLines n,
             if make_surface then some (holes.getD []) else none⟩

/- ------------------------------------------------------------------
   `Geometry.add_ellipsoid`.  Arcs are `add_ellipse_arc(start, center,
   point_on_major_axis, end)` recorded as index 4-tuples over the point
   list `p` (`p[0]` the center, `p[1] .. p[6]` the extremities); loops are
   lists of signed arc indices (`-c` traverses the arc end-to-start).
   ------------------------------------------------------------------ -/

/-- an ellipse arc: (start, center, point on major axis, end). -/
abbrev EllArc := ℕ × ℕ × ℕ × ℕ

/-- the 12 elliptical arcs `c[0] .. c[11]` of `add_ellipsoid`, copied from
the source's `add_ellipse_arc` calls. -/
def ellipsoidArcs : List EllArc :=
  [(1, 0, 6, 6), (6, 0, 4, 4), (4, 0, 3, 3), (3, 0, 1, 1),
   (1, 0, 2, 2), (2, 0, 4, 4), (4, 0, 5, 5), (5, 0, 1, 1),
   (6, 0, 2, 2), (2, 0, 3, 3), (3, 0, 5, 5), (5, 0, 6, 6)]

/-- a signed reference to an arc by index: `neg i` is the source's `-c[i]`,
the arc traversed with start and end swapped. -/
inductive SArc where
  | pos (i : ℕ)
  | neg (i : ℕ)
deriving DecidableEq

def ellArcStart (a : EllArc) : ℕ := a.1

def ellArcEnd (a : EllArc) : ℕ := a.2.2.2

def sArcStart : SArc → ℕ
  | .pos i => ellArcStart (ellipsoidArcs.getD i (0, 0, 0, 0))
  | .neg i => ellArcEnd (ellipsoidArcs.getD i (0, 0, 0, 0))

def sArcEnd : SArc → ℕ
  | .pos i => ellArcEnd (ellipsoidArcs.getD i (0, 0, 0, 0))
  | .neg i => ellArcStart (ellipsoidArcs.getD i (0, 0, 0, 0))

/-- a list of signed arcs is a closed cycle: the end of each arc is the
start of the next, the last wrapping around to the first. -/
def sChainClosed (l : List SArc) : Bool :=
  (l.zip (l.drop 1 ++ l.take 1)).all fun p => sArcEnd p.1 == sArcStart p.2

/-- the 8 triangular curve loops `ll[0] .. ll[7]` of `add_ellipsoid`,
copied from the source's `add_curve_loop` calls. -/
def ellipsoidLoops : List (List SArc) :=
  [[.pos 4, .pos 9, .pos 3],
   [.pos 8, .neg 4, .pos 0],
   [.neg 9, .pos 5, .pos 2],
   [.neg 5, .neg 8, .pos 1],
   [.pos 7, .neg 3, .pos 10],
   [.pos 11, .neg 0, .neg 7],
   [.neg 10, .neg 2, .pos 6],
   [.neg 1, .neg 11, .neg 6]]

/-- a volume: its bounding surface loop's surfaces, and its hole loops. -/
structure VolumeOut where
  shell : List ℕ
  holes : List ℕ
deriving DecidableEq

/-- the result bundle of a successful `add_ellipsoid`: point count, arcs,
loops, the two compound groups pushed onto `_COMPOUND_ENTITIES` (dimension 2
with surface ids, surfaces numbered `0 .. 7` in creation order), the surface
loop, and the optional volume. -/
structure EllipsoidOut where
  num_points : ℕ
  arcs : List EllArc
  loops : List (List SArc)
  compound : List (ℕ × List ℕ)
  surface_loop : List ℕ
  volume : Option VolumeOut
deriving DecidableEq

/-- the bundle `add_ellipsoid` builds once validation has passed:
7 points, the 12 arcs, the 8 loops, one surface per loop, the groups
`s[:4]` and `s[4:]` appended to `_COMPOUND_ENTITIES`, the surface loop over
all of `s`, and `add_volume(surface_loop, holes)` when `with_volume`. -/
def ellipsoidOut (hs : List ℕ) (with_volume : Bool) : EllipsoidOut :=
  { num_points := 7
    arcs := ellipsoidArcs
    loops := ellipsoidLoops
    compound := [(2, [0, 1, 2, 3]), (2, [4, 5, 6, 7])]
    surface_loop := [0, 1, 2, 3, 4, 5, 6, 7]
    volume := if with_volume then some ⟨[0, 1, 2, 3, 4, 5, 6, 7], hs⟩ else none }

/-- `Geometry.add_ellipsoid`: `holes=None` becomes `[]`; then
`if holes: assert with_volume` — only a non-empty holes list is checked. -/
def add_ellipsoid (holes : Option (List ℕ)) (with_volume : Bool) :
    Option EllipsoidOut :=
  let hs := holes.getD []
  if !hs.isEmpty && !with_volume then none
  else some (ellipsoidOut hs with_volume)

/- ------------------------------------------------------------------
   `Geometry.add_box`.
   ------------------------------------------------------------------ -/

/-- the 12 box edges `e[0] .. e[11]` as (start, end) indices into the 8
corner points, copied from the source's `add_line` calls. -/
def boxEdges : List (ℕ × ℕ) :=
  [(0, 1), (0, 2), (0, 4), (1, 3), (1, 5), (2, 3),
   (2, 6), (3, 7), (4, 5), (4, 6), (5, 7), (6, 7)]

/-- a signed reference to a box edge by index. -/
inductive SEdge where
  | pos (i : ℕ)
  | neg (i : ℕ)
deriving DecidableEq

/-- the 6 quadrilateral face loops of `add_box`, copied from the source's
`add_curve_loop` calls. -/
def boxLoops : List (List SEdge) :=
  [[.pos 0, .pos 3, .neg 5, .neg 1],
   [.pos 0, .pos 4, .neg 8, .neg 2],
   [.pos 1, .pos 6, .neg 9, .neg 2],
   [.pos 3, .pos 7, .neg 10, .neg 4],
   [.pos 5, .pos 7, .neg 11, .neg 6],
   [.pos 8, .pos 10, .neg 11, .neg 9]]

/-- the result bundle of a successful `add_box`. -/
structure BoxOut where
  num_points : ℕ
  edges : List (ℕ × ℕ)
  loops : List (List SEdge)
  surface_loop : List ℕ
  volume : Option VolumeOut
deriving DecidableEq

/-- the bundle `add_box` builds once validation has passed. -/
def boxOut (hs : List ℕ) (with_volume : Bool) : BoxOut :=
  { num_points := 8
    edges := boxEdges
    loops := boxLoops
    surface_loop := [0, 1, 2, 3, 4, 5]
    volume := if with_volume then some ⟨[0, 1, 2, 3, 4, 5], hs⟩ else none }

/-- `Geometry.add_box`: same holes handling as `add_ellipsoid` —
`holes=None` becomes `[]`, `if holes: assert with_volume`. -/
def add_box (holes : Option (List ℕ)) (with_volume : Bool) : Option BoxOut :=
  let hs := holes.getD []
  if !hs.isEmpty && !with_volume then none
  else some (boxOut hs with_volume)

/- ------------------------------------------------------------------
   `Geometry._add_torus_extrude_lines`.  Each `extrude` in the loop is a
   rotation-only sweep whose kernel `revolve` output is modelled per the
   spec's description of the result triple.
   ------------------------------------------------------------------ -/

/-- the kernel's identity allocator: revolve outputs receive fresh tags. -/
structure KState where
  next : ℕ
deriving DecidableEq

/-- one `extrude(p, rotation_axis=.., point_on_axis=.., angle=2*pi/3)` call
in the torus loop: the input curve, the far-end "top" curve, and the swept
surface (`out_dim_tags[0]` and `out_dim_tags[1]`). -/
structure RevCall where
  input : ℕ
  top : ℕ
  surf : ℕ
deriving DecidableEq

/-- Modelled from the spec: the gmsh kernel's `revolve` (external, not under
`src/`) returns the "top" far-end image of the input, the swept entity one
dimension higher, and `lat` lateral entities, all with fresh identities
(spec §4.3, "Result: a triple ...").  Only the first two are consumed by
`_add_torus_extrude_lines`. -/
def revolveKernel (lat : ℕ) (input : ℕ) (s : KState) : RevCall × KState :=
  (⟨input, s.next, s.next + 1⟩, ⟨s.next + 2 + lat⟩)

/-- one sweep `for k, p in enumerate(previous)` of the torus loop: revolve
every curve of `previous` in order, collecting the calls. -/
def revolvePass (lat : ℕ) : List ℕ → KState → List RevCall × KState
  | [], s => ([], s)
  | c :: cs, s =>
      let r := revolveKernel lat c s
      let rest := revolvePass lat cs r.2
      (r.1 :: rest.1, rest.2)

/-- the result of `_add_torus_extrude_lines`: the three revolution passes,
`all_surfaces`, the single surface loop built from them, and the shell of
the single returned volume. -/
structure TorusOut where
  pass1 : List RevCall
  pass2 : List RevCall
  pass3 : List RevCall
  all_surfaces : List ℕ
  surface_loop : List ℕ
  volume_shell : List ℕ
deriving DecidableEq

/-- `Geometry._add_torus_extrude_lines`, the sweep phase: starting from the
cross-section circle's curve-loop curves, three passes of revolutions by
`2*pi/3`; in each pass, curve `k`'s input is `previous[k]`, and
`previous[k] = top` feeds the far-end output back in for the next pass.
Every pass appends each swept surface to `all_surfaces`; finally
`add_surface_loop(all_surfaces)` and `add_volume(surface_loop)`. -/
def _add_torus_extrude_lines (lat : ℕ) (curves : List ℕ) (s0 : KState) :
    TorusOut :=
  let p1 := revolvePass lat curves s0
  let p2 := revolvePass lat (p1.1.map RevCall.top) p1.2
  let p3 := revolvePass lat (p2.1.map RevCall.top) p2.2
  let allS := p1.1.map RevCall.surf ++ p2.1.map RevCall.surf
      ++ p3.1.map RevCall.surf
  { pass1 := p1.1
    pass2 := p2.1
    pass3 := p3.1
    all_surfaces := allS
    surface_loop := allS
    volume_shell := allS }

/- ==================================================================
   Helper lemmas.
   ================================================================== -/

lemma le_foldl_max (l : List ℤ) (a : ℤ) : a ≤ l.foldl max a := by
  induction l generalizing a with
  | nil => simp
  | cons b t ih => exact le_trans (le_max_left a b) (ih (max a b))

lemma mem_le_foldl_max (l : List ℤ) (a x : ℤ) (hx : x ∈ l) : x ≤ l.foldl max a := by
  induction l generalizing a with
  | nil => cases hx
  | cons b t ih =>
      rcases List.mem_cons.mp hx with rfl | h
      · exact le_trans (le_max_right a x) (le_foldl_max t (max a x))
      · exact ih (max a b) h

lemma mem_le_maxTaken {x : ℤ} {l : List ℤ} (hx : x ∈ l) : x ≤ maxTaken l := by
  cases l with
  | nil => cases hx
  | cons a t =>
      rcases List.mem_cons.mp hx with rfl | h
      · exact le_foldl_max t x
      · exact mem_le_foldl_max t a x h

lemma maxTaken_succ_not_mem (l : List ℤ) : maxTaken l + 1 ∉ l := by
  intro h
  have := mem_le_maxTaken h
  omega

lemma maxTaken_append_succ (l : List ℤ) :
    maxTaken (l ++ [maxTaken l + 1]) = maxTaken l + 1 := by
  cases l with
  | nil => rfl
  | cons a t =>
      show (t ++ [maxTaken (a :: t) + 1]).foldl max a = maxTaken (a :: t) + 1
      rw [List.foldl_append]
      show max (maxTaken (a :: t)) (maxTaken (a :: t) + 1) = maxTaken (a :: t) + 1
      omega

lemma nodup_append_singleton {l : List ℤ} {n : ℤ} (hl : l.Nodup) (hn : n ∉ l) :
    (l ++ [n]).Nodup := by
  rw [List.nodup_append]
  refine ⟨hl, List.nodup_singleton n, ?_⟩
  intro x hx hx'
  rcases List.mem_singleton.mp hx' with rfl
  exact hn hx

lemma new_physical_group_nodup {σ : Type} {taken : List ℤ} {label : PGLabel σ}
    {r : ResolvedLabel σ} {taken' : List ℤ}
    (hn : taken.Nodup) (h : _new_physical_group taken label = some (r, taken')) :
    taken'.Nodup := by
  cases label with
  | noLabel =>
      simp only [_new_physical_group] at h
      split at h
      · exact absurd h (by simp)
      · rcases Option.some.injEq _ _ |>.mp h with h'
        cases h
        exact nodup_append_singleton hn (maxTaken_succ_not_mem taken)
  | intLabel n =>
      simp only [_new_physical_group] at h
      split at h
      · exact absurd h (by simp)
      · cases h
        next hmem => exact nodup_append_singleton hn hmem
  | strLabel s =>
      simp only [_new_physical_group] at h
      cases h
      exact nodup_append_singleton hn (maxTaken_succ_not_mem taken)

lemma runAllocsFrom_nodup {σ : Type} :
    ∀ (ls : List (PGLabel σ)) (taken st : List ℤ),
      taken.Nodup → runAllocsFrom taken ls = some st → st.Nodup
  | [], taken, st, hn, h => by
      simp only [runAllocsFrom] at h
      cases h
      exact hn
  | l :: ls, taken, st, hn, h => by
      simp only [runAllocsFrom] at h
      split at h
      · exact absurd h (by simp)
      · next r taken' heq =>
          exact runAllocsFrom_nodup ls taken' st
            (new_physical_group_nodup hn heq) h

/-- C2: after any successful sequence of physical-group allocations from a
fresh geometry, the taken integer slots are pairwise distinct; a further
`label=None` allocation resolves to `1 + max` of the taken integers (`1` when
none are taken, since `maxTaken [] = 0`); a further explicit integer label
that is already taken fails; and a further string-labelled allocation marks
exactly the integer slot `max + 1` as taken — advancing the running maximum
by exactly 1 — while returning the quoted string for display only. -/
theorem C2_physical_group_allocation {σ : Type} (ls : List (PGLabel σ))
    (st : List ℤ) (h : runAllocs ls = some st) :
    st.Nodup
    ∧ _new_physical_group st (PGLabel.noLabel (σ := σ))
        = some (.intRepr (maxTaken st + 1), st ++ [maxTaken st + 1])
    ∧ (∀ n : ℤ, n ∈ st → _new_physical_group st (PGLabel.intLabel (σ := σ) n) = none)
    ∧ (∀ s : σ, _new_physical_group st (PGLabel.strLabel s)
        = some (.strRepr s, st ++ [maxTaken st + 1])
        ∧ maxTaken (st ++ [maxTaken st + 1]) = maxTaken st + 1) := by
  refine ⟨runAllocsFrom_nodup ls [] st (by simp) h, ?_, ?_, ?_⟩
  · simp only [_new_physical_group]
    rw [if_neg (maxTaken_succ_not_mem st)]
  · intro n hn
    simp only [_new_physical_group]
    rw [if_pos hn]
  · intro s
    exact ⟨rfl, maxTaken_append_succ st⟩

/-- witness for C2 at the concrete allocation sequence
`[None, 5, "x", None]`, which yields taken slots `[1, 5, 6, 7]`. -/
theorem C2_physical_group_allocation_witness :
    ([1, 5, 6, 7] : List ℤ).Nodup ∧
      _new_physical_group (σ := Unit) [1, 5, 6, 7] .noLabel
        = some (.intRepr 8, [1, 5, 6, 7, 8]) := by
  have h := C2_physical_group_allocation (σ := Unit)
    [.noLabel, .intLabel 5, .strLabel (), .noLabel] [1, 5, 6, 7] (by rfl)
  exact ⟨h.1, h.2.1⟩


/-- C1 (the code bug): for every entity and 3-vector, `Geometry.translate`
issues the kernel call `gmsh.model.geo.rotate` on the entity's dim-tag with
the three vector components — a rotation, not a translation — and never
issues a kernel translate call. -/
theorem C1_translate_issues_rotation (e : EntityRef) (v : ℚ × ℚ × ℚ) :
    translate e v = .rotateCall [(e.dimension, e.tag)] [v.1, v.2.1, v.2.2]
    ∧ ∀ dimTags args, translate e v ≠ GeoKernelCall.translateCall dimTags args := by
  constructor
  · rfl
  · intro dimTags args h
    exact GeoKernelCall.noConfusion h

/-- C3 counterexample: the claimed lower bound `0 < angle` is not enforced.
A rotation-only extrude call with `angle = 0` — which the claim says must
fail — passes validation and reaches the kernel's revolve. -/
theorem C3_angle_zero_accepted :
    (extrude (some 1) none (some (0, 0, 1)) (some (0, 0, 0)) (some 0)
      NumLayersArg.noneArg none).isOk = true := by
  have h0 : (0 : ℚ) < numpyPi := by norm_num [numpyPi]
  simp [extrude, layersHeightsOk, ExtrudeOutcome.isOk, if_pos h0]

/-- C3 as amended: in both modes involving rotation (rotation-only and
twist), validation accepts the supplied angle exactly when
`angle < numpy.pi`: the call with `angle = numpy.pi` fails, any angle below
it (including `0` and negative angles, which the original claim excluded)
succeeds, and larger turns are not accepted in a single call. -/
theorem C3_rotation_angle_check (dim : ℕ) (t : Option (ℚ × ℚ × ℚ))
    (r pt : ℚ × ℚ × ℚ) (a : ℚ) :
    ((extrude (some dim) t (some r) (some pt) (some a)
        NumLayersArg.noneArg none).isOk = true) ↔ a < numpyPi := by
  rcases lt_or_ge a numpyPi with hlt | hge
  · simp only [iff_true_intro hlt, iff_true]
    cases t <;> simp [extrude, layersHeightsOk, ExtrudeOutcome.isOk, if_pos hlt]
  · have hn : ¬ a < numpyPi := not_lt.mpr hge
    simp only [iff_false_intro hn, iff_false]
    cases t <;> simp [extrude, layersHeightsOk, ExtrudeOutcome.isOk, if_neg hn]

/-- witness for C3: at `angle = numpyPi - 2⁻⁴⁸` (the IEEE double just below
`numpy.pi`) the rotation-only call succeeds, and at `angle = numpyPi` it
does not. -/
theorem C3_rotation_angle_check_witness :
    (extrude (some 1) none (some (0, 0, 1)) (some (0, 0, 0))
        (some (numpyPi - 1 / 281474976710656))
        NumLayersArg.noneArg none).isOk = true
    ∧ ¬ (extrude (some 1) none (some (0, 0, 1)) (some (0, 0, 0))
        (some numpyPi) NumLayersArg.noneArg none).isOk = true := by
  constructor
  · exact (C3_rotation_angle_check 1 none (0, 0, 1) (0, 0, 0) _).mpr (by norm_num [numpyPi])
  · intro h
    exact absurd ((C3_rotation_angle_check 1 none (0, 0, 1) (0, 0, 0) _).mp h)
      (lt_irrefl numpyPi)

/-- C4: for every input entity and every combination of the remaining
arguments, an extrude call with `rotation_axis` given but `point_on_axis`
absent never produces a `(top, extruded, lateral)` result: in the
rotation-only branch and in the twist branch alike, the call dies — on the
angle comparison or on subscripting `point_on_axis` — before any kernel
sweep is issued. -/
theorem C4_rotation_without_point_on_axis_fails (dimension : Option ℕ)
    (translation_axis : Option (ℚ × ℚ × ℚ)) (r : ℚ × ℚ × ℚ)
    (angle : Option ℚ) (num_layers : NumLayersArg) (heights : Option (List ℚ)) :
    (extrude dimension translation_axis (some r) none angle
        num_layers heights).isOk = false := by
  cases dimension with
  | none => rfl
  | some d =>
      cases translation_axis <;> cases angle <;>
        simp only [extrude] <;>
        split <;>
        first
          | rfl
          | (split <;> rfl)

lemma circleArcs_length (N : ℕ) (hN : 1 ≤ N) : (circleArcs N).length = N := by
  simp only [circleArcs, List.length_append, List.length_map, List.length_range',
    List.length_singleton]
  omega

lemma circleArcs_getElem (N i : ℕ) (hN : 1 ≤ N) (hi : i < N) :
    (circleArcs N)[i]? = some (i + 1, 0, if i + 1 = N then 1 else i + 2) := by
  unfold circleArcs
  rcases Nat.lt_or_ge i (N - 1) with h | h
  · rw [List.getElem?_append_left (by simpa using h)]
    rw [List.getElem?_map, List.getElem?_range' 1 1 h]
    have : ¬ (i + 1 = N) := by omega
    simp [this]
    omega
  · have hiN : i = N - 1 := by omega
    subst hiN
    rw [List.getElem?_append_right (by simp)]
    have h1 : N - 1 + 1 = N := by omega
    simp [h1]

/-- C5: for every `num_sections = N ≥ 1`, `add_circle` lays out `1 + N`
points (index 0 the center, 1..N the perimeter), its curve loop contains
exactly the `N` arcs `circleArcs N` — arc `k` (0-based index `k - 1`)
running from perimeter point `k` through the center (index 0) to perimeter
point `k + 1`, the last arc from perimeter point `N` back to perimeter
point 1 — and consecutive arcs share endpoints cyclically, so the loop is
closed. -/
theorem C5_add_circle_loop (N : ℕ) (hN : 1 ≤ N) :
    circleNumPoints N = 1 + N
    ∧ ((add_circle N none none true).2).map CircleOut.curve_loop
        = some (circleArcs N)
    ∧ (circleArcs N).length = N
    ∧ (∀ i : ℕ, i + 1 < N → (circleArcs N)[i]? = some (i + 1, 0, i + 2))
    ∧ (circleArcs N)[N - 1]? = some (N, 0, 1)
    ∧ (∀ a ∈ circleArcs N, arcCenter a = 0)
    ∧ (∀ i : ℕ, i + 1 < N →
        ((circleArcs N)[i]?).map arcEnd = ((circleArcs N)[i + 1]?).map arcStart)
    ∧ ((circleArcs N)[N - 1]?).map arcEnd = ((circleArcs N)[0]?).map arcStart := by
  refine ⟨by simp [circleNumPoints, Nat.add_comm], rfl, circleArcs_length N hN,
    ?_, ?_, ?_, ?_, ?_⟩
  · intro i hi
    rw [circleArcs_getElem N i hN (by omega)]
    have : ¬ (i + 1 = N) := by omega
    simp [this]
  · rw [circleArcs_getElem N (N - 1) hN (by omega)]
    have : N - 1 + 1 = N := by omega
    simp [this]
  · intro a ha
    unfold circleArcs at ha
    rcases List.mem_append.mp ha with h | h
    · rcases List.mem_map.mp h with ⟨k, _, rfl⟩
      rfl
    · rcases List.mem_singleton.mp h with rfl
      rfl
  · intro i hi
    rw [circleArcs_getElem N i hN (by omega), circleArcs_getElem N (i + 1) hN (by omega)]
    have h1 : ¬ (i + 1 = N) := by omega
    simp [h1, arcEnd, arcStart]
  · rw [circleArcs_getElem N (N - 1) hN (by omega), circleArcs_getElem N 0 hN (by omega)]
    have h1 : N - 1 + 1 = N := by omega
    simp [h1, arcEnd, arcStart]

/-- witness for C5 at `num_sections = 4`: the loop has 4 arcs, the last
running from perimeter point 4 back to perimeter point 1. -/
theorem C5_add_circle_loop_witness :
    (circleArcs 4).length = 4 ∧ (circleArcs 4)[3]? = some (4, 0, 1) := by
  have h := C5_add_circle_loop 4 (by omega)
  exact ⟨h.2.2.1, h.2.2.2.2.1⟩

/-- C6: whenever a transformation matrix is supplied and the eigenvalue-
magnitude check `numpy.allclose(abs(eigvals(R)), ones)` comes out false —
as it does for the pure scaling matrix `diag(2, 1, 1)`, whose eigenvalue 2
lies off the unit circle — `add_circle` fails on that assert, and the event
trace is empty: no point, no arc, no loop and no surface of that circle has
been created when it fails. -/
theorem C6_add_circle_R_validation (num_sections : ℕ)
    (holes : Option (List ℕ)) (make_surface : Bool) :
    add_circle num_sections (some false) holes make_surface = ([], none) := by
  unfold add_circle
  cases holes <;> cases make_surface <;> rfl

/-- C7: whenever `add_ellipsoid` succeeds it has created exactly 7 points
(the center plus the 6 extremities), exactly 12 elliptical arcs, and
exactly 8 triangular curve loops of 3 signed arcs each, every loop closing
to a cycle; the 8 surfaces are recorded as the two compound groups
`s[:4]` and `s[4:]`, all 8 are gathered into the one surface loop, and when
`with_volume` is set that loop bounds the created volume. -/
theorem C7_add_ellipsoid_structure (holes : Option (List ℕ)) (with_volume : Bool)
    (out : EllipsoidOut) (h : add_ellipsoid holes with_volume = some out) :
    out.num_points = 7
    ∧ out.arcs.length = 12
    ∧ out.loops.length = 8
    ∧ (∀ l ∈ out.loops, l.length = 3 ∧ sChainClosed l = true)
    ∧ out.compound = [(2, [0, 1, 2, 3]), (2, [4, 5, 6, 7])]
    ∧ out.surface_loop = [0, 1, 2, 3, 4, 5, 6, 7]
    ∧ (with_volume = true → out.volume = some ⟨out.surface_loop, holes.getD []⟩) := by
  have hout : out = ellipsoidOut (holes.getD []) with_volume := by
    simp only [add_ellipsoid] at h
    split at h
    · exact absurd h (by simp)
    · exact (Option.some.injEq _ _ |>.mp h).symm
  subst hout
  refine ⟨rfl, rfl, rfl,
    fun l hl => (by decide : ∀ l ∈ ellipsoidLoops, l.length = 3 ∧ sChainClosed l = true) l hl,
    rfl, rfl, ?_⟩
  intro hv
  subst hv
  rfl

/-- witness for C7 at `holes=None`, `with_volume=True`. -/
theorem C7_add_ellipsoid_structure_witness :
    (ellipsoidOut [] true).arcs.length = 12
    ∧ (ellipsoidOut [] true).volume = some ⟨[0, 1, 2, 3, 4, 5, 6, 7], []⟩ := by
  have h := C7_add_ellipsoid_structure none true (ellipsoidOut [] true) rfl
  exact ⟨h.2.1, h.2.2.2.2.2.2 rfl⟩

lemma revolvePass_map_input (lat : ℕ) (cs : List ℕ) (s : KState) :
    ((revolvePass lat cs s).1).map RevCall.input = cs := by
  induction cs generalizing s with
  | nil => rfl
  | cons c t ih => simp [revolvePass, revolveKernel, ih]

lemma revolvePass_length (lat : ℕ) (cs : List ℕ) (s : KState) :
    ((revolvePass lat cs s).1).length = cs.length := by
  induction cs generalizing s with
  | nil => rfl
  | cons c t ih => simp [revolvePass, revolveKernel, ih]

/-- C8: for every cross-section curve list, every lateral-entity count of
the kernel and every starting identity state, `_add_torus_extrude_lines`
collects exactly `3 * (number of cross-section curves)` swept surfaces;
pass 1 revolves exactly the cross-section curves, and in passes 2 and 3 the
input of each revolution is, curve by curve, the "top" output of the
corresponding revolution of the previous pass; and all collected surfaces
are assembled into the single surface loop that bounds the single returned
volume. -/
theorem C8_torus_extrude_lines_surfaces (lat : ℕ) (curves : List ℕ) (s0 : KState) :
    (_add_torus_extrude_lines lat curves s0).all_surfaces.length = 3 * curves.length
    ∧ (_add_torus_extrude_lines lat curves s0).pass1.map RevCall.input = curves
    ∧ (_add_torus_extrude_lines lat curves s0).pass2.map RevCall.input
        = (_add_torus_extrude_lines lat curves s0).pass1.map RevCall.top
    ∧ (_add_torus_extrude_lines lat curves s0).pass3.map RevCall.input
        = (_add_torus_extrude_lines lat curves s0).pass2.map RevCall.top
    ∧ (_add_torus_extrude_lines lat curves s0).surface_loop
        = (_add_torus_extrude_lines lat curves s0).all_surfaces
    ∧ (_add_torus_extrude_lines lat curves s0).volume_shell
        = (_add_torus_extrude_lines lat curves s0).surface_loop := by
  unfold _add_torus_extrude_lines
  refine ⟨?_, ?_, ?_, ?_, rfl, rfl⟩
  · simp only [List.length_append, List.length_map, revolvePass_length]
    omega
  · exact revolvePass_map_input ..
  · exact revolvePass_map_input ..
  · exact revolvePass_map_input ..

/-- C9: for each of the four hole-accepting builders, a non-empty holes
list supplied while the corresponding `make_surface` / `with_volume` flag
is false makes the call fail on the assert; with the flag true the call
succeeds and the supplied hole loops are attached to the constructed plane
surface (circle, polygon) or volume (ellipsoid, box). -/
theorem C9_holes_require_flag (x : ℕ) (hrest : List ℕ) :
    (∀ N rOk, (add_circle N rOk (some (x :: hrest)) false).2 = none)
    ∧ (∀ n, add_polygon n (some (x :: hrest)) false = none)
    ∧ add_ellipsoid (some (x :: hrest)) false = none
    ∧ add_box (some (x :: hrest)) false = none
    ∧ (∀ N, (add_circle N none (some (x :: hrest)) true).2
        = some ⟨circleArcs N, some (x :: hrest)⟩)
    ∧ (∀ n, add_polygon n (some (x :: hrest)) true
        = some ⟨n, polygonLines n, some (x :: hrest)⟩)
    ∧ add_ellipsoid (some (x :: hrest)) true = some (ellipsoidOut (x :: hrest) true)
    ∧ (ellipsoidOut (x :: hrest) true).volume
        = some ⟨[0, 1, 2, 3, 4, 5, 6, 7], x :: hrest⟩
    ∧ add_box (some (x :: hrest)) true = some (boxOut (x :: hrest) true)
    ∧ (boxOut (x :: hrest) true).volume = some ⟨[0, 1, 2, 3, 4, 5], x :: hrest⟩ := by
  refine ⟨fun N rOk => rfl, fun n => rfl, rfl, rfl, fun N => rfl, fun n => rfl,
    rfl, rfl, rfl, rfl⟩

/-- C10: the treatment of an explicitly supplied empty holes list is
inconsistent across builders: `add_circle` and `add_polygon` reject any
non-`None` holes argument — the empty list included — whenever
`make_surface` is false, while `add_ellipsoid` and `add_box` accept the
empty list together with `with_volume = False` and reject only non-empty
hole lists (the rejection of non-empty lists being C9). -/
theorem C10_empty_holes_inconsistency :
    (∀ N rOk, (add_circle N rOk (some []) false).2 = none)
    ∧ (∀ N rOk, (add_circle N rOk (some []) false).1 = [])
    ∧ (∀ n, add_polygon n (some []) false = none)
    ∧ add_ellipsoid (some []) false = some (ellipsoidOut [] false)
    ∧ add_box (some []) false = some (boxOut [] false) := by
  exact ⟨fun N rOk => rfl, fun N rOk => rfl, fun n => rfl, rfl, rfl⟩

end Pygmsh
